import Mathlib

/-!
Shallow embedding of `src/index.ts` of sass-importer-json: a Dart Sass
importer that resolves `.json` import paths on disk and translates the
parsed JSON values into SCSS variable declarations.

Modelling conventions:
* JavaScript runtime values that can reach the translator are modelled by
  the closed inductive `JSValue` (the JSON shapes plus the non-JSON
  `typeof` shapes `bigint` and `undefined` that the final `throw` branch
  guards against).  JS numbers are IEEE doubles; the model restricts the
  finite ones to integers (every value exercised by the spec is integral)
  and keeps the non-finite sentinels `NaN`/`Infinity`/`-Infinity`, which in
  JS satisfy `typeof v === 'number'`.
* Thrown exceptions become `Except.error` with the exact message string the
  source builds; `null` sentinel results become `Option.none`.
* The file system is a pure oracle: two predicates `fileExists`/`dirExists`
  passed as arguments (`statSync(..).isFile()` / `.isDirectory()` in the
  source).
* Node's `path` helpers (`dirname`, `basename`, `extname`, `join`) are
  modelled for ordinary POSIX path strings (no trailing slashes, no
  `.`/`..` normalisation); the resolution theorems relate the resolver to
  the same helpers, so they do not depend on the corner cases of that
  model.
* `String.replace(/c/g, r)` for a single-character pattern `c` is modelled
  per character over `String.data`.
-/

/-! ## String escaping (`stringToScssLiteral`, src/index.ts lines 9-16) -/

/-- Model of JS `str.replace(/c/g, r)` for a single-character global
pattern: every occurrence of the character `c` is replaced by `r`. -/
def replaceChar (s : String) (c : Char) (r : String) : String :=
  ⟨(s.data.map fun x => if x = c then r.data else [x]).flatten⟩

/-- `stringToScssLiteral` from the source.  NOTE: the third replacement is
written `'\a '` in the JS source; `\a` is not a recognised JS string
escape, so that literal denotes the two characters `"a "` (no backslash).
The model reproduces that behaviour faithfully. -/
def stringToScssLiteral (str : String) : String :=
  "\"" ++
    (replaceChar (replaceChar (replaceChar
      str
      '\\' "\\\\")
      '"' "\\\"")
      '\n' "a ")
    ++ "\""

/-- The per-character effect of the three chained replacements of
`stringToScssLiteral` (backslash first, then quote, then newline). -/
def escChar (c : Char) : List Char :=
  if c = '\\' then ['\\', '\\']
  else if c = '"' then ['\\', '"']
  else if c = '\n' then ['a', ' ']
  else [c]

/-- Scanner for the body of a double-quoted SCSS string literal.  The
flag records that the previous character was a backslash whose escaped
character is still owed; an unescaped `"` (premature termination), an
unescaped raw newline (illegal inside a quoted literal), or a dangling
final backslash makes the body malformed. -/
def scssBodyScan : Bool → List Char → Bool
  | esc, [] => !esc
  | esc, c :: rest =>
    if esc then scssBodyScan false rest
    else if c = '\\' then scssBodyScan true rest
    else if c = '"' then false
    else if c = '\n' then false
    else scssBodyScan false rest

/-- The body of a double-quoted SCSS string literal is well formed. -/
def scssStringBodyOk (cs : List Char) : Bool :=
  scssBodyScan false cs

/-- A well-formed double-quoted SCSS string literal: an opening and a
closing quote around a body that `scssStringBodyOk` accepts. -/
def isWellFormedScssStringLiteral (s : String) : Bool :=
  decide (2 ≤ s.data.length) &&
    s.data.head? == some '"' &&
    s.data.getLast? == some '"' &&
    scssStringBodyOk (s.data.drop 1).dropLast

/-! ## Value translation (`jsonToScssInner`, src/index.ts lines 28-57) -/

/-- Sign-of-infinity / NaN-aware model of a JS number (`typeof v ===
'number'`).  Finite values are restricted to integers. -/
inductive JSNumber where
  | finite (i : Int)
  | nan
  | posInf
  | negInf
deriving DecidableEq

/-- JS `Number.prototype.toString(10)` on the modelled numbers. -/
def JSNumber.toString10 : JSNumber → String
  | .finite i => toString i
  | .nan => "NaN"
  | .posInf => "Infinity"
  | .negInf => "-Infinity"

/-- A JavaScript value as dispatched on by `jsonToScssInner`'s `typeof`
chain: the six JSON shapes, plus `bigint` and `undefined` for the
defensive final `throw` branch.  Dict entries keep `Object.entries`
insertion order. -/
inductive JSValue where
  | jsBool (b : Bool)
  | jsStr (s : String)
  | jsNum (n : JSNumber)
  | jsNull
  | jsArr (elems : List JSValue)
  | jsObj (entries : List (String × JSValue))
  | jsBigInt (i : Int)
  | jsUndefined

/-- `typeof v` is neither `'boolean'`, `'string'`, `'number'` nor
`'object'`: the shapes that fall through to the final `throw` in
`jsonToScssInner`. -/
def JSValue.isUnsupportedTypeof : JSValue → Bool
  | .jsBigInt _ => true
  | .jsUndefined => true
  | _ => false

/-- `typeof v === 'object' && v !== null && !Array.isArray(v)`: the
top-level shape `load` accepts. -/
def JSValue.isDict : JSValue → Bool
  | .jsObj _ => true
  | _ => false

mutual

/-- `jsonToScssInner` from the source: converts a JS value to an SCSS
literal expression, throwing `Invalid JSON value` on a value outside the
`typeof` shapes boolean/string/number/object. -/
def jsonToScssInner : JSValue → Except String String
  | .jsBool b => .ok (if b then "true" else "false")
  | .jsStr s => .ok (stringToScssLiteral s)
  | .jsNum n => .ok n.toString10
  | .jsNull => .ok "null"
  | .jsArr elems => do
      pure ("[" ++ String.intercalate ", " (← jsonToScssArr elems) ++ "]")
  | .jsObj entries => do
      pure ("(" ++ String.intercalate ", " (← jsonToScssObj entries) ++ ")")
  | .jsBigInt _ => .error "Invalid JSON value"
  | .jsUndefined => .error "Invalid JSON value"

/-- `value.map(v => jsonToScssInner(v))` on an array: left-to-right, the
first thrown error propagates. -/
def jsonToScssArr : List JSValue → Except String (List String)
  | [] => pure []
  | v :: vs => do
      pure ((← jsonToScssInner v) :: (← jsonToScssArr vs))

/-- `Object.entries(value).map(([key, value]) => ...)` on a dict:
each entry becomes `<quoted-key>: <translated-value>`. -/
def jsonToScssObj : List (String × JSValue) → Except String (List String)
  | [] => pure []
  | (k, v) :: rest => do
      pure ((stringToScssLiteral k ++ ": " ++ (← jsonToScssInner v))
        :: (← jsonToScssObj rest))

end

/-! ## Identifier validation and `load` (src/index.ts lines 59-61, 188-204) -/

/-- First character class of `sassVariableIdentifierRegExp`:
`[_a-zA-Z\u0080-￿]`.  In JS the regexp runs over UTF-16 code units,
so every code point ≥ U+0080 matches (astral code points contribute two
surrogates, both inside `\u0080-￿`); hence the model accepts every
character with code point ≥ 0x80. -/
def isSassIdentStartChar (c : Char) : Bool :=
  c = '_' || ('a' ≤ c && c ≤ 'z') || ('A' ≤ c && c ≤ 'Z') || 0x80 ≤ c.toNat

/-- Continuation character class `[-_a-zA-Z0-9\u0080-￿]*`. -/
def isSassIdentChar (c : Char) : Bool :=
  isSassIdentStartChar c || c = '-' || ('0' ≤ c && c ≤ '9')

/-- Model of `key.match(sassVariableIdentifierRegExp) !== null`.  The
source regexp `/[_a-zA-Z\u0080-￿][-_a-zA-Z0-9\u0080-￿]*/` is
UNANCHORED, and its tail `[...]*` matches the empty string, so a match
exists somewhere in `key` exactly when some character of `key` is in the
first character class. -/
def sassVariableIdentifierMatches (key : String) : Bool :=
  key.data.any isSassIdentStartChar

/-- The error message `load` builds for a key rejected by the regexp
test. -/
def invalidNameMsg (key : String) : String :=
  "\"" ++ key ++ "\" is not a valid variable name"

/-- The body of the callback `load` maps over `Object.entries(json)`:
validate the key against the identifier regexp, then emit
`$<key>: <literal>;\n`. -/
def declOf (key : String) (v : JSValue) : Except String String :=
  if !sassVariableIdentifierMatches key then
    .error (invalidNameMsg key)
  else do
    pure ("$" ++ key ++ ": " ++ (← jsonToScssInner v) ++ ";\n")

/-- `Object.entries(json).map(...).join('')`: the declarations of all
top-level entries concatenated in iteration order; the first thrown error
propagates. -/
def loadContents : List (String × JSValue) → Except String String
  | [] => pure ""
  | (k, v) :: rest => do
      pure ((← declOf k v) ++ (← loadContents rest))

/-- The post-parse part of `load` (src/index.ts lines 188-204): reject a
non-dict top level, otherwise return `{syntax: 'scss', contents}`.
Reading the file and running the pluggable `parse` function are the
caller-supplied boundary; `load` is modelled as a function of the parsed
value. -/
def load (json : JSValue) : Except String (String × String) :=
  match json with
  | .jsObj entries => do
      pure ("scss", ← loadContents entries)
  | _ => .error "json file must contain a dict at the top level"

/-! ## Path helpers (Node `path`, POSIX) -/

/-- Split a character list on a separator character; always returns at
least one (possibly empty) group. -/
def splitOnChar (sep : Char) : List Char → List (List Char)
  | [] => [[]]
  | c :: rest =>
    match splitOnChar sep rest with
    | [] => if c = sep then [[], []] else [[c]]
    | g :: gs => if c = sep then [] :: g :: gs else (c :: g) :: gs

/-- Re-join groups with `/` separators (inverse of `splitOnChar '/'`). -/
def joinSlash : List (List Char) → List Char
  | [] => []
  | [g] => g
  | g :: gs => g ++ '/' :: joinSlash gs

/-- Model of Node `path.basename`: the component after the last `/`
(for paths without a trailing slash). -/
def pathBasename (p : String) : String :=
  ⟨(splitOnChar '/' p.data).getLastD []⟩

/-- Model of Node `path.dirname`: everything before the last `/`, `"."`
when there is no slash, `"/"` for a file directly under the root. -/
def pathDirname (p : String) : String :=
  let parts := splitOnChar '/' p.data
  if parts.length ≤ 1 then "."
  else
    let d := joinSlash parts.dropLast
    if d = [] then "/" else ⟨d⟩

/-- Index of the last `.` in the character list, if any. -/
def lastDotIdx (cs : List Char) : Option Nat :=
  (cs.reverse.findIdx? (· = '.')).map fun i => cs.length - 1 - i

/-- Model of Node `path.extname`: the suffix of the basename from its last
`.`, empty when there is no dot or the only dot is the leading character
(dotfiles have no extension). -/
def pathExtname (p : String) : String :=
  let b := pathBasename p
  match lastDotIdx b.data with
  | some i => if i = 0 then "" else ⟨b.data.drop i⟩
  | none => ""

/-- Model of Node `path.join` on two segments (no `.`/`..` normalisation
beyond collapsing a `"."` or root first segment). -/
def pathJoin (dir base : String) : String :=
  if dir = "." then base
  else if dir.data.getLast? = some '/' then dir ++ base
  else dir ++ "/" ++ base

/-! ## Path resolution (`resolveImportPath`, src/index.ts lines 91-149)

The file system is modelled by two oracles `fe`/`de` standing for the
source's `fileExists`/`dirExists` (`statSync` probes). -/

/-- The nested `disambiguate` helper: for each candidate extension, probe
`_<name><ext>` and `<name><ext>` inside `dir`; 0 existing matches →
`none`, 1 → that path, ≥2 → the `Multiple matches` error naming all of
them. -/
def disambiguate (exts : List String) (fe : String → Bool)
    (dir name : String) : Except String (Option String) :=
  let existing := (exts.flatMap fun ext =>
      [pathJoin dir ("_" ++ name ++ ext), pathJoin dir (name ++ ext)]
    ).filter fe
  if existing.length > 1 then
    .error ("Multiple matches: " ++ String.intercalate ", " existing)
  else
    .ok existing.head?

/-- JS `a ?? b` where evaluating either side may throw: propagate a thrown
error from `a`, keep a non-null result, otherwise fall through to `b`. -/
def orTry (a b : Except String (Option String)) :
    Except String (Option String) := do
  match ← a with
  | some p => pure (some p)
  | none => b

/-- `resolveImportPath` from the source: split the path, restrict the
extension list when the given extension is known, then chain the
disambiguation attempts with `??`. -/
def resolveImportPath (fe de : String → Bool) (path : String)
    (knownExts : List String) (fromImport : Bool) :
    Except String (Option String) :=
  let dir := pathDirname path
  let base := pathBasename path
  let originalExt := pathExtname path
  let name := base.dropRight originalExt.length
  let exts :=
    if originalExt ≠ "" ∧ knownExts.contains originalExt then [originalExt]
    else knownExts
  orTry (if fromImport then disambiguate exts fe dir (name ++ ".import")
         else .ok none)
    (orTry (disambiguate exts fe dir name)
      (if originalExt = "" ∧ de path then
        orTry (if fromImport then disambiguate exts fe path "index.import"
               else .ok none)
          (disambiguate exts fe path "index")
      else .ok none))

/-- First-success semantics of an ordered list of resolution steps: the
first step that throws or claims a path decides the outcome; if every
step yields `none` the result is `none`. -/
def firstClaim : List (Except String (Option String)) →
    Except String (Option String)
  | [] => .ok none
  | x :: xs =>
    match x with
    | .error e => .error e
    | .ok (some p) => .ok (some p)
    | .ok none => firstClaim xs

/-! ## `canonicalize` (src/index.ts lines 167-187) -/

/-- The parts of a WHATWG `URL` that `canonicalize` inspects. -/
structure Url where
  protocol : String
  pathname : String

/-- `canonicalize` from the source: bail out with the not-claimed sentinel
unless the containing document has a `file:` URL; otherwise resolve the
reference relative to the containing document's directory and wrap a
resolved path back into a `file://` URL (modelled as the URL string). -/
def canonicalize (fe de : String → Bool) (extensions : List String)
    (path : String) (containingUrl : Option Url) (fromImport : Bool) :
    Except String (Option String) := do
  match containingUrl with
  | none => pure none
  | some u =>
    if u.protocol ≠ "file:" then
      pure none
    else
      let absolutePath := pathJoin (pathDirname u.pathname) path
      match ← resolveImportPath fe de absolutePath extensions fromImport with
      | none => pure none
      | some resolvedPath => pure (some ("file://" ++ resolvedPath))

/-- Total extractor for stating results about translations already known
to succeed (used only under an `isOk`-style hypothesis). -/
def exOk : Except String String → String
  | .ok s => s
  | .error _ => ""

/-! ## Helper lemmas -/

@[simp] theorem exBind_ok {α β : Type} (a : α) (f : α → Except String β) :
    (Except.ok a >>= f) = f a := rfl

@[simp] theorem exBind_error {α β : Type} (e : String) (f : α → Except String β) :
    ((Except.error e : Except String α) >>= f) = Except.error e := rfl

@[simp] theorem exMap_ok {α β : Type} (f : α → β) (a : α) :
    (f <$> (Except.ok a : Except String α)) = Except.ok (f a) := rfl

@[simp] theorem exMap_error {α β : Type} (f : α → β) (e : String) :
    (f <$> (Except.error e : Except String α)) = Except.error e := rfl

@[simp] theorem exPure {α : Type} (a : α) :
    (pure a : Except String α) = Except.ok a := rfl

mutual

theorem jsonToScssInner_error : ∀ (v : JSValue) (e : String),
    jsonToScssInner v = .error e → e = "Invalid JSON value"
  | .jsBool b, e, h => by simp [jsonToScssInner] at h
  | .jsStr s, e, h => by simp [jsonToScssInner] at h
  | .jsNum n, e, h => by simp [jsonToScssInner] at h
  | .jsNull, e, h => by simp [jsonToScssInner] at h
  | .jsArr elems, e, h => by
      cases hr : jsonToScssArr elems with
      | ok a => simp [jsonToScssInner, hr] at h
      | error ea =>
        simp [jsonToScssInner, hr] at h
        subst h
        exact jsonToScssArr_error elems ea hr
  | .jsObj entries, e, h => by
      cases hr : jsonToScssObj entries with
      | ok a => simp [jsonToScssInner, hr] at h
      | error ea =>
        simp [jsonToScssInner, hr] at h
        subst h
        exact jsonToScssObj_error entries ea hr
  | .jsBigInt i, e, h => by simp [jsonToScssInner] at h; exact h.symm
  | .jsUndefined, e, h => by simp [jsonToScssInner] at h; exact h.symm

theorem jsonToScssArr_error : ∀ (l : List JSValue) (e : String),
    jsonToScssArr l = .error e → e = "Invalid JSON value"
  | [], e, h => by simp [jsonToScssArr] at h
  | v :: vs, e, h => by
      cases hv : jsonToScssInner v with
      | error ev =>
        simp [jsonToScssArr, hv] at h
        subst h
        exact jsonToScssInner_error v ev hv
      | ok sv =>
        cases hvs : jsonToScssArr vs with
        | error evs =>
          simp [jsonToScssArr, hv, hvs] at h
          subst h
          exact jsonToScssArr_error vs evs hvs
        | ok svs => simp [jsonToScssArr, hv, hvs] at h

theorem jsonToScssObj_error : ∀ (l : List (String × JSValue)) (e : String),
    jsonToScssObj l = .error e → e = "Invalid JSON value"
  | [], e, h => by simp [jsonToScssObj] at h
  | (k, v) :: rest, e, h => by
      cases hv : jsonToScssInner v with
      | error ev =>
        simp [jsonToScssObj, hv] at h
        subst h
        exact jsonToScssInner_error v ev hv
      | ok sv =>
        cases hrest : jsonToScssObj rest with
        | error er =>
          simp [jsonToScssObj, hv, hrest] at h
          subst h
          exact jsonToScssObj_error rest er hrest
        | ok srest => simp [jsonToScssObj, hv, hrest] at h

end

theorem invalidNameMsg_head (k : String) :
    (invalidNameMsg k).data.head? = some '"' := by
  simp [invalidNameMsg, String.data_append]

theorem invalidNameMsg_ne_invalidJson (k : String) :
    invalidNameMsg k ≠ "Invalid JSON value" := by
  intro h
  have h2 := congrArg (fun s => s.data.head?) h
  simp only [] at h2
  rw [invalidNameMsg_head] at h2
  exact absurd h2 (by decide)

theorem invalidNameMsg_ne_topMsg (k : String) :
    invalidNameMsg k ≠ "json file must contain a dict at the top level" := by
  intro h
  have h2 := congrArg (fun s => s.data.head?) h
  simp only [] at h2
  rw [invalidNameMsg_head] at h2
  exact absurd h2 (by decide)

theorem declOf_error (k : String) (v : JSValue) (e : String)
    (h : declOf k v = .error e) :
    e = invalidNameMsg k ∨ e = "Invalid JSON value" := by
  by_cases hm : sassVariableIdentifierMatches k
  · right
    cases hv : jsonToScssInner v with
    | ok s => simp [declOf, hm, hv] at h
    | error ev =>
      simp [declOf, hm, hv] at h
      subst h
      exact jsonToScssInner_error v ev hv
  · left
    simp [declOf, hm] at h
    exact h.symm

theorem loadContents_error (es : List (String × JSValue)) (e : String)
    (h : loadContents es = .error e) :
    e = "Invalid JSON value" ∨ ∃ k, e = invalidNameMsg k := by
  induction es with
  | nil => simp [loadContents] at h
  | cons p rest ih =>
    obtain ⟨k, v⟩ := p
    cases hd : declOf k v with
    | error ed =>
      simp [loadContents, hd] at h
      subst h
      rcases declOf_error k v ed hd with h1 | h1
      · exact Or.inr ⟨k, h1⟩
      · exact Or.inl h1
    | ok d =>
      cases hr : loadContents rest with
      | error er =>
        simp [loadContents, hd, hr] at h
        subst h
        exact ih hr
      | ok r => simp [loadContents, hd, hr] at h

/-! ## Claim theorems: value translation and `load` -/

/-- C10: for the empty top-level dict, `load` succeeds, returns empty
contents (zero declarations), and still sets the syntax field to
`scss`. -/
theorem load_empty_dict : load (.jsObj []) = .ok ("scss", "") := rfl

/-- C6: `load` throws the `json file must contain a dict at the top
level` error exactly for parsed contents whose top level is not a
string-keyed map (list, scalar, null, or a non-JSON shape); on a
top-level dict it never throws that particular error. -/
theorem load_top_level_shape (v : JSValue) :
    (v.isDict = false →
      load v = .error "json file must contain a dict at the top level") ∧
    (v.isDict = true →
      load v ≠ .error "json file must contain a dict at the top level") := by
  constructor
  · intro h
    cases v <;> simp_all [load, JSValue.isDict]
  · intro h hcontra
    cases v with
    | jsObj es =>
      cases hc : loadContents es with
      | ok c => simp [load, hc] at hcontra
      | error e =>
        simp [load, hc] at hcontra
        subst hcontra
        rcases loadContents_error es _ hc with h1 | ⟨k, h1⟩
        · exact absurd h1 (by decide)
        · exact absurd h1.symm (invalidNameMsg_ne_topMsg k)
    | _ => simp [JSValue.isDict] at h

/-- C6 witness: a top-level array hits the top-level-shape error and the
empty dict does not. -/
theorem load_top_level_shape_witness :
    load (.jsArr []) = .error "json file must contain a dict at the top level" ∧
    load (.jsObj []) ≠ .error "json file must contain a dict at the top level" :=
  ⟨(load_top_level_shape (.jsArr [])).1 rfl,
    (load_top_level_shape (.jsObj [])).2 rfl⟩

/-- C3 counterexample: the key `1bad` (leading digit) is NOT rejected —
the unanchored regexp matches its substring `bad`, so `load` emits the
declaration instead of throwing the invalid-variable-name error the claim
requires. -/
theorem load_accepts_leading_digit_key :
    load (.jsObj [("1bad", .jsNull)]) = .ok ("scss", "$1bad: null;\n") := rfl

/-- C3 amended: the per-key validation in `load` rejects a key with the
invalid-variable-name error exactly when the unanchored identifier regexp
finds no match, i.e. when no character of the key is an underscore, ASCII
letter, or code point ≥ U+0080; `1bad` and `_ok-2` both pass, a key such
as `42-1` fails. -/
theorem declOf_key_validation (key : String) (v : JSValue) :
    (declOf key v = .error (invalidNameMsg key) ↔
      sassVariableIdentifierMatches key = false) ∧
    sassVariableIdentifierMatches "1bad" = true ∧
    sassVariableIdentifierMatches "_ok-2" = true ∧
    sassVariableIdentifierMatches "42-1" = false := by
  refine ⟨⟨fun h => ?_, fun h => ?_⟩, by decide, by decide, by decide⟩
  · by_contra hm
    rw [Bool.not_eq_false] at hm
    cases hv : jsonToScssInner v with
    | ok s => simp [declOf, hm, hv] at h
    | error ev =>
      simp [declOf, hm, hv] at h
      have := jsonToScssInner_error v ev hv
      rw [h] at this
      exact invalidNameMsg_ne_invalidJson key this
  · simp [declOf, h]

/-- C9 amended: a value whose `typeof` is outside
boolean/string/number/object (`bigint`, `undefined`) makes the translator
throw `Invalid JSON value`; the non-finite numeric sentinels have
`typeof 'number'` and are rendered via `toString` instead of erroring. -/
theorem jsonToScssInner_unsupported_spec :
    (∀ v : JSValue, v.isUnsupportedTypeof = true →
      jsonToScssInner v = .error "Invalid JSON value") ∧
    jsonToScssInner (.jsNum .nan) = .ok "NaN" ∧
    jsonToScssInner (.jsNum .posInf) = .ok "Infinity" := by
  refine ⟨fun v h => ?_, rfl, rfl⟩
  cases v <;> simp_all [JSValue.isUnsupportedTypeof, jsonToScssInner]

/-- C9 witness: a BigInt value is rejected with `Invalid JSON value`. -/
theorem jsonToScssInner_unsupported_witness :
    jsonToScssInner (.jsBigInt 1) = .error "Invalid JSON value" :=
  jsonToScssInner_unsupported_spec.1 (.jsBigInt 1) rfl

/-- C9 counterexample: `NaN` — a non-finite numeric sentinel not
representable in JSON — is translated to the output `NaN` rather than
failing with the unsupported-value error. -/
theorem jsonToScssInner_nan_counterexample :
    jsonToScssInner (.jsNum .nan) = .ok "NaN" := rfl

/-- C5: evaluating the translator at a text value containing a newline
shows the newline is replaced by the two characters `a` + space with NO
backslash (the JS replacement literal `'\a '` denotes `"a "`), not the
Sass escape sequence backslash-`a`-space the claim (and the source's own
doc reference to Sass string escapes) requires. -/
theorem stringToScssLiteral_newline :
    stringToScssLiteral "x\ny" = "\"xa y\"" := by decide

theorem loadContents_ok (es : List (String × JSValue))
    (hkeys : ∀ p ∈ es, sassVariableIdentifierMatches p.1 = true)
    (hvals : ∀ p ∈ es, ∃ s, jsonToScssInner p.2 = .ok s) :
    loadContents es = .ok ((es.map fun p =>
      "$" ++ p.1 ++ ": " ++ exOk (jsonToScssInner p.2) ++ ";\n").foldr (· ++ ·) "") := by
  induction es with
  | nil => rfl
  | cons p rest ih =>
    obtain ⟨k, v⟩ := p
    obtain ⟨s, hs⟩ := hvals (k, v) (List.mem_cons_self _ _)
    have hk := hkeys (k, v) (List.mem_cons_self _ _)
    have hrest := ih (fun q hq => hkeys q (List.mem_cons_of_mem _ hq))
      (fun q hq => hvals q (List.mem_cons_of_mem _ hq))
    simp [loadContents, declOf, hk, hs, hrest, exOk]

/-- C7: on a top-level dict whose keys all pass validation and whose
values all translate, `load` returns exactly one declaration
`$<key>: <literal>;` plus newline per key, concatenated in entry order,
under the `scss` syntax. -/
theorem load_emits_declarations (es : List (String × JSValue))
    (hkeys : ∀ p ∈ es, sassVariableIdentifierMatches p.1 = true)
    (hvals : ∀ p ∈ es, ∃ s, jsonToScssInner p.2 = .ok s) :
    load (.jsObj es) = .ok ("scss", (es.map fun p =>
      "$" ++ p.1 ++ ": " ++ exOk (jsonToScssInner p.2) ++ ";\n").foldr (· ++ ·) "") := by
  simp [load, loadContents_ok es hkeys hvals]

/-- C7 witness: translating the dict `{"a": 1}` yields exactly
`$a: 1;` plus newline. -/
theorem load_emits_declarations_witness :
    load (.jsObj [("a", .jsNum (.finite 1))]) = .ok ("scss", "$a: 1;\n") := by
  have h := load_emits_declarations [("a", .jsNum (.finite 1))]
    (by intro p hp; simp at hp; subst hp; decide)
    (by intro p hp; simp at hp; subst hp; exact ⟨"1", rfl⟩)
  exact h.trans (by rfl)

theorem escChar_block (c : Char) :
    ((((if c = '\\' then "\\\\".data else [c]).map
        fun x => if x = '"' then "\\\"".data else [x]).flatten.map
        fun x => if x = '\n' then "a ".data else [x]).flatten) = escChar c := by
  by_cases h1 : c = '\\'
  · subst h1; rfl
  · by_cases h2 : c = '"'
    · subst h2; rfl
    · by_cases h3 : c = '\n'
      · subst h3; rfl
      · simp [h1, h2, h3, escChar]

theorem escChain (cs : List Char) :
    ((((cs.map fun x => if x = '\\' then "\\\\".data else [x]).flatten.map
        fun x => if x = '"' then "\\\"".data else [x]).flatten.map
        fun x => if x = '\n' then "a ".data else [x]).flatten)
      = (cs.map escChar).flatten := by
  induction cs with
  | nil => rfl
  | cons c rest ih =>
    simp only [List.map_cons, List.flatten_cons, List.map_append,
      List.flatten_append]
    rw [ih, escChar_block]

theorem stringToScssLiteral_data (s : String) :
    (stringToScssLiteral s).data = ('"' :: (s.data.map escChar).flatten) ++ ['"'] := by
  show (("\"" ++ _) ++ "\"").data = _
  rw [String.data_append, String.data_append]
  show ['"'] ++ _ ++ ['"'] = _
  rw [← escChain s.data]
  rfl

theorem scssBodyScan_escChar (c : Char) (r : List Char) :
    scssBodyScan false (escChar c ++ r) = scssBodyScan false r := by
  by_cases h1 : c = '\\'
  · subst h1; simp [escChar, scssBodyScan]
  · by_cases h2 : c = '"'
    · subst h2; simp [escChar, scssBodyScan]
    · by_cases h3 : c = '\n'
      · subst h3; simp [escChar, scssBodyScan]
      · simp [escChar, h1, h2, h3, scssBodyScan]

theorem scssStringBodyOk_flatten (cs : List Char) :
    scssStringBodyOk ((cs.map escChar).flatten) = true := by
  unfold scssStringBodyOk
  induction cs with
  | nil => rfl
  | cons c rest ih =>
    rw [List.map_cons, List.flatten_cons, scssBodyScan_escChar, ih]

/-- C4: the three chained replacements act independently per input
character (backslash doubled first, then a single backslash prefixed to
each quote — never doubled afterwards), the produced literal is a
well-formed double-quoted SCSS string literal for every text value, and
in particular the text value `a"b\c` becomes the literal `"a\"b\\c"`. -/
theorem stringToScssLiteral_escaping (s : String) :
    (stringToScssLiteral s).data = ('"' :: (s.data.map escChar).flatten) ++ ['"'] ∧
    isWellFormedScssStringLiteral (stringToScssLiteral s) = true ∧
    stringToScssLiteral "a\"b\\c" = "\"a\\\"b\\\\c\"" := by
  refine ⟨stringToScssLiteral_data s, ?_, by decide⟩
  rw [isWellFormedScssStringLiteral, stringToScssLiteral_data s]
  simp only [List.cons_append, List.drop_succ_cons, List.drop_zero,
    List.dropLast_concat, List.head?_cons, List.getLast?_concat,
    List.length_append, List.length_cons, scssStringBodyOk_flatten]
  simp
  rw [← List.cons_append]
  exact List.getLast?_concat _

/-! ## Claim theorems: path resolution -/

theorem firstClaim_nil : firstClaim [] = .ok none := rfl

theorem firstClaim_cons (a : Except String (Option String))
    (xs : List (Except String (Option String))) :
    firstClaim (a :: xs) = orTry a (firstClaim xs) := by
  cases a with
  | error e => rfl
  | ok o => cases o <;> rfl

theorem orTry_none_left (b : Except String (Option String)) :
    orTry (.ok none) b = b := rfl

theorem orTry_none_right (a : Except String (Option String)) :
    orTry a (.ok none) = a := by
  cases a with
  | error e => rfl
  | ok o => cases o <;> rfl

/-- C1: `resolveImportPath` is exactly the first-success chain of (1) the
`.import`-suffixed stem in the reference's directory when resolving a
legacy `@import`, (2) the plain stem there, and (3) — only when the
reference had no extension and names an existing directory —
`index.import` (legacy only) then `index` inside that directory; when
every step yields nothing the result is the `none` sentinel, not an
error. -/
theorem resolveImportPath_order (fe de : String → Bool) (path : String)
    (knownExts : List String) (fromImport : Bool) :
    resolveImportPath fe de path knownExts fromImport =
      (let dir := pathDirname path
       let name := (pathBasename path).dropRight (pathExtname path).length
       let exts :=
         if pathExtname path ≠ "" ∧ knownExts.contains (pathExtname path)
         then [pathExtname path] else knownExts
       firstClaim (
         (if fromImport then [disambiguate exts fe dir (name ++ ".import")]
          else []) ++
         [disambiguate exts fe dir name] ++
         (if pathExtname path = "" ∧ de path then
           (if fromImport then [disambiguate exts fe path "index.import"]
            else []) ++
           [disambiguate exts fe path "index"]
          else []))) := by
  simp only [resolveImportPath]
  cases fromImport <;>
    by_cases hc : pathExtname path = "" ∧ de path <;>
      simp [hc, firstClaim_cons, firstClaim_nil, orTry_none_left,
        orTry_none_right]

/-- C2: one disambiguation step probes exactly `_<stem><ext>` and
`<stem><ext>` for each candidate extension; zero existing matches yield
the `none` sentinel (next fallback), exactly one yields that path, and
two or more throw the fatal `Multiple matches` error naming every
existing match. -/
theorem disambiguate_cases (exts : List String) (fe : String → Bool)
    (dir name : String) :
    (((exts.flatMap fun ext =>
        [pathJoin dir ("_" ++ name ++ ext), pathJoin dir (name ++ ext)]).filter fe)
        = [] →
      disambiguate exts fe dir name = .ok none) ∧
    (∀ p, ((exts.flatMap fun ext =>
        [pathJoin dir ("_" ++ name ++ ext), pathJoin dir (name ++ ext)]).filter fe)
        = [p] →
      disambiguate exts fe dir name = .ok (some p)) ∧
    (2 ≤ ((exts.flatMap fun ext =>
        [pathJoin dir ("_" ++ name ++ ext), pathJoin dir (name ++ ext)]).filter fe).length →
      disambiguate exts fe dir name =
        .error ("Multiple matches: " ++ String.intercalate ", "
          ((exts.flatMap fun ext =>
            [pathJoin dir ("_" ++ name ++ ext), pathJoin dir (name ++ ext)]).filter fe))) := by
  refine ⟨fun h => ?_, fun p h => ?_, fun h => ?_⟩
  · simp [disambiguate, h]
  · simp [disambiguate, h]
  · simp only [disambiguate]
    rw [if_pos (by omega)]

/-- C2 witness: with both `path/to/_foo.json` and `path/to/foo.json` on
disk, resolving the stem `foo` throws the ambiguity error naming both. -/
theorem disambiguate_cases_witness :
    disambiguate [".json"]
      (fun p => ["path/to/_foo.json", "path/to/foo.json"].contains p)
      "path/to" "foo"
      = .error "Multiple matches: path/to/_foo.json, path/to/foo.json" := by
  have h := (disambiguate_cases [".json"]
    (fun p => ["path/to/_foo.json", "path/to/foo.json"].contains p)
    "path/to" "foo").2.2 (by decide)
  exact h.trans (by rfl)

/-- C8: whenever the containing document's URL is absent or does not use
the `file:` scheme, `canonicalize` returns the not-claimed sentinel
(never an exception), for every file-system state. -/
theorem canonicalize_not_claimed (fe de : String → Bool)
    (extensions : List String) (path : String) (containingUrl : Option Url)
    (fromImport : Bool)
    (h : ∀ u, containingUrl = some u → u.protocol ≠ "file:") :
    canonicalize fe de extensions path containingUrl fromImport = .ok none := by
  cases containingUrl with
  | none => rfl
  | some u =>
    have hu := h u rfl
    simp [canonicalize, hu]

/-- C8 witness: an `https:` containing document and an absent containing
document both yield the sentinel even when every path exists on disk. -/
theorem canonicalize_not_claimed_witness :
    canonicalize (fun _ => true) (fun _ => true) [".json"] "data"
      (some (Url.mk "https:" "/srv/a.scss")) false = .ok none ∧
    canonicalize (fun _ => true) (fun _ => true) [".json"] "data"
      none true = .ok none :=
  ⟨canonicalize_not_claimed _ _ _ _ _ _ (fun u hu => by cases hu; decide),
    canonicalize_not_claimed _ _ _ _ _ _ (fun u hu => by cases hu)⟩
